import Mathlib

/-!
Verification of the process-lifecycle registry of `src/node_launcher.py`
(class `ROS2NodeLauncher`).

The Python registry `self.processes` is an insertion-ordered dictionary from
node name to a live process handle; we embed it as an association list
`List (String × Nat)` from node name to process id, in registration order
(Python dictionaries preserve insertion order).

Side effects of the original are made explicit:
* spawning (`subprocess.Popen`) is modelled by an oracle
  `spawnResult : Nat → Option Nat` consulted at the current spawn counter —
  `some pid` when `Popen` returns a process with that pid, `none` when it
  raises (the `except` branch of `launch_node`);
* `process.wait(timeout=5)` is modelled by an oracle `waitOk : Nat → Bool` —
  `false` means the wait raised (`TimeoutExpired` or any other exception
  caught by the `except` branch of `stop_node`);
* every `print`/`Popen`/`terminate` observable is recorded as an `Event`.
-/

/-- Catalog entry of `available_nodes`: executable name and description. -/
structure NodeInfo where
  name : String
  desc : String
deriving DecidableEq, Repr

/-- The fixed ROS2 package name set in `__init__`. -/
def package_name : String := "my_robot_controller"

/-- The hard-coded catalog `self.available_nodes`, in declaration order. -/
def available_nodes : List (String × NodeInfo) :=
  [("1", ⟨"publisher_node", "Publisher Node"⟩),
   ("2", ⟨"subscriber_node", "Subscriber Node"⟩),
   ("3", ⟨"service_node", "Service Node"⟩),
   ("4", ⟨"client_node", "Client Node"⟩),
   ("5", ⟨"led_client", "LED Client"⟩),
   ("6", ⟨"led_service", "LED Service"⟩),
   ("7", ⟨"yes_no_service", "Yes/No Service"⟩),
   ("8", ⟨"yes_no_client", "Yes/No Client"⟩)]

/-- Observable effects of the launcher: process spawns, signals, and the
diagnostic lines it prints. -/
inductive Event where
  | spawned (name : String) (pid : Nat)
  | spawnFailed (name : String)
  | alreadyRunning (name : String) (pid : Nat)
  | terminated (name : String) (pid : Nat)
  | stopFailed (name : String) (pid : Nat)
  | notRunning (name : String)
  | invalidKey (key : String)
  | noNodesRunning
deriving DecidableEq, Repr

/-- `true` for events that correspond to an OS process call: a `Popen`
spawn attempt or a `terminate` signal (followed by a bounded wait). -/
def Event.isProcessCall : Event → Bool
  | .spawned _ _ => true
  | .spawnFailed _ => true
  | .terminated _ _ => true
  | .stopFailed _ _ => true
  | _ => false

/-- The launcher's mutable state plus the oracles fixing the outcome of the
OS calls it makes. `registry` embeds `self.processes`. -/
structure World where
  registry : List (String × Nat)
  spawnCount : Nat
  spawnResult : Nat → Option Nat
  waitOk : Nat → Bool

/-- Dictionary membership/lookup `node_name in self.processes` /
`self.processes[node_name]`. -/
def lookupName (name : String) : List (String × Nat) → Option Nat
  | [] => none
  | (n, p) :: rest => if n = name then some p else lookupName name rest

/-- Dictionary deletion `del self.processes[node_name]`. -/
def eraseKey (name : String) : List (String × Nat) → List (String × Nat)
  | [] => []
  | (n, p) :: rest =>
    if n = name then eraseKey name rest else (n, p) :: eraseKey name rest

/-- Number of registry entries for a given node name. -/
def countKey (name : String) : List (String × Nat) → Nat
  | [] => 0
  | (n, _) :: rest => (if n = name then 1 else 0) + countKey name rest

/-- Result of a single-node operation: new state, the Python return value
(`True`/`False`), and the observable events. -/
structure OpResult where
  world : World
  ok : Bool
  events : List Event

/-- Result of a bulk operation (which returns `None` in Python). -/
structure BatchResult where
  world : World
  events : List Event

/-- `launch_node` (src/node_launcher.py lines 48-69): refuse if already
registered; otherwise `Popen` and, on success, record the handle; on an
exception report failure and register nothing. -/
def launch_node (w : World) (node_name : String) : OpResult :=
  match lookupName node_name w.registry with
  | some pid => ⟨w, false, [.alreadyRunning node_name pid]⟩
  | none =>
    match w.spawnResult w.spawnCount with
    | some pid =>
      ⟨{ w with registry := w.registry ++ [(node_name, pid)],
                spawnCount := w.spawnCount + 1 },
       true, [.spawned node_name pid]⟩
    | none =>
      ⟨{ w with spawnCount := w.spawnCount + 1 }, false,
       [.spawnFailed node_name]⟩

/-- `stop_node` (src/node_launcher.py lines 71-86): refuse if absent;
otherwise `terminate()`, `wait(timeout=5)`, and only then
`del self.processes[node_name]` — so when the wait raises, the `del` is
skipped and the entry stays; the exception is caught and reported
(`return False`), never propagated. -/
def stop_node (w : World) (node_name : String) : OpResult :=
  match lookupName node_name w.registry with
  | none => ⟨w, false, [.notRunning node_name]⟩
  | some pid =>
    if w.waitOk pid then
      ⟨{ w with registry := eraseKey node_name w.registry }, true,
       [.terminated node_name pid]⟩
    else
      ⟨w, false, [.stopFailed node_name pid]⟩

/-- The loop of `stop_all_nodes`: `for node_name in list(self.processes.keys())`
over a snapshot of the keys, calling `stop_node` on each and ignoring its
return value. -/
def stopAllLoop : World → List String → BatchResult
  | w, [] => ⟨w, []⟩
  | w, n :: ns =>
    let r := stop_node w n
    let rest := stopAllLoop r.world ns
    ⟨rest.world, r.events ++ rest.events⟩

/-- `stop_all_nodes` (src/node_launcher.py lines 88-97): report when nothing
is running, otherwise stop every registered node in registration order. -/
def stop_all_nodes (w : World) : BatchResult :=
  if w.registry = [] then ⟨w, [.noNodesRunning]⟩
  else stopAllLoop w (w.registry.map Prod.fst)

/-- `show_status` (src/node_launcher.py lines 99-107): print each registered
(name, pid) pair; it only reads the registry, so we return the unchanged
state together with the listed snapshot. -/
def show_status (w : World) : World × List (String × Nat) :=
  (w, w.registry)

/-- Python `str.strip()` on the characters of the string: drop leading and
trailing whitespace. -/
def stripChars (cs : List Char) : List Char :=
  (((cs.dropWhile Char.isWhitespace).reverse).dropWhile Char.isWhitespace).reverse

/-- Python `key.strip()`. -/
def strip (s : String) : String :=
  ⟨stripChars s.data⟩

/-- Catalog lookup `key in self.available_nodes` / `self.available_nodes[key]`. -/
def findNode (key : String) : List (String × NodeInfo) → Option NodeInfo
  | [] => none
  | (k, info) :: rest => if k = key then some info else findNode key rest

/-- `launch_multiple` (src/node_launcher.py lines 109-118): for each key,
strip it, resolve it against the catalog and launch the resolved node, or
report an invalid key and continue with the rest of the batch. -/
def launch_multiple (w : World) : List String → BatchResult
  | [] => ⟨w, []⟩
  | key :: rest =>
    match findNode (strip key) available_nodes with
    | some info =>
      let r := launch_node w info.name
      let b := launch_multiple r.world rest
      ⟨b.world, r.events ++ b.events⟩
    | none =>
      let b := launch_multiple w rest
      ⟨b.world, .invalidKey (strip key) :: b.events⟩

/-- The loop of `launch_all`: `for node_info in self.available_nodes.values()`. -/
def launchAllLoop : World → List NodeInfo → BatchResult
  | w, [] => ⟨w, []⟩
  | w, info :: rest =>
    let r := launch_node w info.name
    let b := launchAllLoop r.world rest
    ⟨b.world, r.events ++ b.events⟩

/-- `launch_all` (src/node_launcher.py lines 120-125): launch every catalog
entry in catalog order. -/
def launch_all (w : World) : BatchResult :=
  launchAllLoop w (available_nodes.map Prod.snd)

/-- The registry invariant: each node name appears at most once. -/
def KeysNodup (w : World) : Prop :=
  (w.registry.map Prod.fst).Nodup

instance (w : World) : Decidable (KeysNodup w) := by
  unfold KeysNodup
  infer_instance

/-! Helper lemmas about the association-list registry. -/

theorem lookupName_eq_none (name : String) (r : List (String × Nat)) :
    lookupName name r = none ↔ name ∉ r.map Prod.fst := by
  induction r with
  | nil => simp [lookupName]
  | cons hd tl ih =>
    obtain ⟨n, p⟩ := hd
    by_cases h : n = name <;> simp [lookupName, h, ih, Ne.symm, eq_comm]

theorem lookupName_append (name : String) (r s : List (String × Nat)) :
    lookupName name (r ++ s) =
      (match lookupName name r with
       | some p => some p
       | none => lookupName name s) := by
  induction r with
  | nil => simp [lookupName]
  | cons hd tl ih =>
    obtain ⟨n, p⟩ := hd
    by_cases h : n = name <;> simp [lookupName, h, ih]

theorem countKey_append (name : String) (r s : List (String × Nat)) :
    countKey name (r ++ s) = countKey name r + countKey name s := by
  induction r with
  | nil => simp [countKey]
  | cons hd tl ih =>
    obtain ⟨n, p⟩ := hd
    simp [countKey, ih]
    omega

theorem countKey_eq_zero (name : String) (r : List (String × Nat))
    (h : lookupName name r = none) : countKey name r = 0 := by
  induction r with
  | nil => simp [countKey]
  | cons hd tl ih =>
    obtain ⟨n, p⟩ := hd
    by_cases hn : n = name
    · simp [lookupName, hn] at h
    · simp [lookupName, hn] at h
      simp [countKey, hn, ih h]

theorem eraseKey_append (name : String) (r s : List (String × Nat)) :
    eraseKey name (r ++ s) = eraseKey name r ++ eraseKey name s := by
  induction r with
  | nil => simp [eraseKey]
  | cons hd tl ih =>
    obtain ⟨n, p⟩ := hd
    by_cases h : n = name <;> simp [eraseKey, h, ih]

theorem eraseKey_of_not_mem (name : String) (r : List (String × Nat))
    (h : name ∉ r.map Prod.fst) : eraseKey name r = r := by
  induction r with
  | nil => simp [eraseKey]
  | cons hd tl ih =>
    obtain ⟨n, p⟩ := hd
    simp only [List.map_cons, List.mem_cons, not_or] at h
    simp [eraseKey, Ne.symm h.1, ih h.2]

theorem eraseKey_cons_self (name : String) (p : Nat)
    (rest : List (String × Nat)) :
    eraseKey name ((name, p) :: rest) = eraseKey name rest := by
  simp [eraseKey]

theorem lookupName_eraseKey_self (name : String) (r : List (String × Nat)) :
    lookupName name (eraseKey name r) = none := by
  induction r with
  | nil => simp [eraseKey, lookupName]
  | cons hd tl ih =>
    obtain ⟨n, p⟩ := hd
    by_cases h : n = name <;> simp [eraseKey, lookupName, h, ih]

theorem eraseKey_sublist (name : String) (r : List (String × Nat)) :
    (eraseKey name r).Sublist r := by
  induction r with
  | nil => simp [eraseKey]
  | cons hd tl ih =>
    obtain ⟨n, p⟩ := hd
    by_cases h : n = name
    · simpa [eraseKey, h] using ih.cons (n, p)
    · simpa [eraseKey, h] using ih.cons₂ (n, p)

/-- How the loop of `stop_all_nodes` transforms a registry split as
`pre ++ r`, where `pre` holds the entries already kept (their waits timed
out) and the loop still has to visit the names of `r`: every visited entry
gets exactly one stop attempt in order, entries whose wait succeeds are
deleted and the others stay. -/
theorem stopAllLoop_spec (r : List (String × Nat)) :
    ∀ (pre : List (String × Nat)) (w : World),
      w.registry = pre ++ r →
      ((pre ++ r).map Prod.fst).Nodup →
      stopAllLoop w (r.map Prod.fst) =
        ⟨{ w with registry := pre ++ r.filter fun q => !w.waitOk q.2 },
         r.map fun q =>
           if w.waitOk q.2 then Event.terminated q.1 q.2
           else Event.stopFailed q.1 q.2⟩ := by
  induction r with
  | nil =>
    intro pre w hreg hnd
    obtain ⟨reg, sc, sr, wo⟩ := w
    simp only [List.append_nil] at hreg
    subst hreg
    simp [stopAllLoop]
  | cons hd rest ih =>
    intro pre w hreg hnd
    obtain ⟨n, p⟩ := hd
    rw [show (pre ++ (n, p) :: rest).map Prod.fst
          = pre.map Prod.fst ++ n :: rest.map Prod.fst by simp] at hnd
    obtain ⟨hpre, hcons, hdisj⟩ := List.nodup_append.mp hnd
    have hnpre : n ∉ pre.map Prod.fst := fun hmem =>
      hdisj hmem (List.mem_cons_self n _)
    have hnrest : n ∉ rest.map Prod.fst := (List.nodup_cons.mp hcons).1
    have hlook : lookupName n w.registry = some p := by
      rw [hreg, lookupName_append, (lookupName_eq_none n pre).mpr hnpre]
      simp [lookupName]
    simp only [List.map_cons, stopAllLoop, stop_node, hlook]
    by_cases hw : w.waitOk p
    · have herase : eraseKey n w.registry = pre ++ rest := by
        rw [hreg, eraseKey_append, eraseKey_cons_self,
            eraseKey_of_not_mem n pre hnpre, eraseKey_of_not_mem n rest hnrest]
      have hnd' : ((pre ++ rest).map Prod.fst).Nodup := by
        rw [List.map_append]
        exact List.Nodup.append hpre (List.nodup_cons.mp hcons).2
          (fun a ha hb => hdisj ha (List.mem_cons_of_mem n hb))
      have hstep := ih pre { w with registry := eraseKey n w.registry }
        (by rw [herase]) hnd'
      simp only [hw, if_true]
      rw [hstep, herase]
      simp [hw]
    · have hreg' : w.registry = (pre ++ [(n, p)]) ++ rest := by
        rw [hreg]; simp
      have hnd' : (((pre ++ [(n, p)]) ++ rest).map Prod.fst).Nodup := by
        rw [show ((pre ++ [(n, p)]) ++ rest).map Prod.fst
              = pre.map Prod.fst ++ n :: rest.map Prod.fst by simp]
        exact hnd
      have hstep := ih (pre ++ [(n, p)]) w hreg' hnd'
      simp only [hw, if_false, Bool.false_eq_true]
      rw [hstep]
      simp [hw]

/-! Concrete worlds used to instantiate the theorems below. -/

/-- One running node whose termination wait raises (times out). -/
def W1 : World := ⟨[("publisher_node", 7)], 0, fun _ => none, fun _ => false⟩

/-- One running node whose termination wait succeeds. -/
def W1w : World := ⟨[("led_client", 9)], 1, fun _ => none, fun _ => true⟩

/-- Empty registry, every spawn succeeds with pid 42, every wait succeeds. -/
def W3 : World := ⟨[], 0, fun _ => some 42, fun _ => true⟩

/-- One running node, used for the absent-name stop. -/
def W6 : World := ⟨[("publisher_node", 11)], 0, fun _ => none, fun _ => true⟩

/-- Empty registry for the empty-stopAll scenario. -/
def W7 : World := ⟨[], 3, fun _ => some 1, fun _ => true⟩

/-- Two running nodes; waits succeed. -/
def W9a : World :=
  ⟨[("publisher_node", 3), ("subscriber_node", 4)], 2, fun _ => none, fun _ => true⟩

/-- Same registry as `W9a` but every process is dead to `waitOk`. -/
def W9b : World :=
  ⟨[("publisher_node", 3), ("subscriber_node", 4)], 2, fun _ => none, fun _ => false⟩

/-- Empty registry, spawns succeed with pid 55. -/
def W10 : World := ⟨[], 0, fun _ => some 55, fun _ => true⟩

/-- Claim C6: stopping a node that is not in the registry reports
`NotRunning` (the "is not running" diagnostic, returning `False`), sends no
signal and makes no process call, and leaves the state unchanged. -/
theorem stop_node_absent (w : World) (name : String)
    (h : lookupName name w.registry = none) :
    stop_node w name = ⟨w, false, [.notRunning name]⟩ ∧
    ((stop_node w name).events.all fun e => !e.isProcessCall) = true := by
  constructor
  · simp [stop_node, h]
  · simp [stop_node, h, Event.isProcessCall]

/-- Witness for C6 at a concrete state: `client_node` is absent from `W6`. -/
theorem stop_node_absent_witness :
    stop_node W6 "client_node" = ⟨W6, false, [.notRunning "client_node"]⟩ ∧
    ((stop_node W6 "client_node").events.all fun e => !e.isProcessCall) = true :=
  stop_node_absent W6 "client_node" (by decide)

/-- Claim C7: `stop_all_nodes` on an empty registry only reports that no
nodes are running: the state is unchanged, the registry stays empty, and no
spawn or signal process call is made. -/
theorem stop_all_nodes_empty (w : World) (h : w.registry = []) :
    stop_all_nodes w = ⟨w, [.noNodesRunning]⟩ ∧
    ((stop_all_nodes w).events.all fun e => !e.isProcessCall) = true ∧
    (stop_all_nodes w).world.registry = [] := by
  refine ⟨?_, ?_, ?_⟩ <;> simp [stop_all_nodes, h, Event.isProcessCall]

/-- Witness for C7 at the concrete empty-registry world `W7`. -/
theorem stop_all_nodes_empty_witness :
    stop_all_nodes W7 = ⟨W7, [.noNodesRunning]⟩ ∧
    ((stop_all_nodes W7).events.all fun e => !e.isProcessCall) = true ∧
    (stop_all_nodes W7).world.registry = [] :=
  stop_all_nodes_empty W7 rfl

/-- Claim C9: `show_status` is a read-only snapshot: it returns the state
unchanged, lists exactly the registered (name, pid) pairs, two states with
the same registry (regardless of which processes are still alive according
to `waitOk`) list the same snapshot, and repeating the call returns the
same snapshot. -/
theorem show_status_snapshot (w w' : World) (h : w.registry = w'.registry) :
    (show_status w).1 = w ∧
    (show_status w).2 = w.registry ∧
    (show_status w).2 = (show_status w').2 ∧
    (show_status (show_status w).1).2 = (show_status w).2 := by
  simp [show_status, h]

/-- Witness for C9: `W9a` and `W9b` share a registry but disagree on which
processes are alive; the snapshot is the same. -/
theorem show_status_snapshot_witness :
    (show_status W9a).1 = W9a ∧
    (show_status W9a).2 = W9a.registry ∧
    (show_status W9a).2 = (show_status W9b).2 ∧
    (show_status (show_status W9a).1).2 = (show_status W9a).2 :=
  show_status_snapshot W9a W9b rfl

/-- Claim C1 counterexample: in `W1` the node `publisher_node` is registered
with pid 7 and its wait raises; `stop_node` sends the signal and catches the
error (the `stopFailed` event), but the registry entry is NOT removed —
refuting "removes the registry entry regardless of whether the wait
succeeded or raised". -/
theorem stop_node_timeout_keeps_entry :
    lookupName "publisher_node" W1.registry = some 7 ∧
    (stop_node W1 "publisher_node").events = [Event.stopFailed "publisher_node" 7] ∧
    ¬ lookupName "publisher_node" (stop_node W1 "publisher_node").world.registry = none := by
  decide

/-- Claim C1 (amended): for a registered node, `stop_node` sends the
termination signal and waits up to 5 seconds; when the wait succeeds the
entry is removed, and when the wait raises (`TimeoutExpired`/spawn error)
the error is caught and reported — never propagated, the call returns
`False` — but the entry remains in the registry. -/
theorem stop_node_spec (w : World) (name : String) (pid : Nat)
    (h : lookupName name w.registry = some pid) :
    stop_node w name =
      if w.waitOk pid then
        ⟨{ w with registry := eraseKey name w.registry }, true,
         [.terminated name pid]⟩
      else ⟨w, false, [.stopFailed name pid]⟩ := by
  simp [stop_node, h]

/-- Witness for the amended C1 at the concrete world `W1w`. -/
theorem stop_node_spec_witness :
    lookupName "led_client" W1w.registry = some 9 ∧
    stop_node W1w "led_client" =
      (if W1w.waitOk 9 then
        ⟨{ W1w with registry := eraseKey "led_client" W1w.registry }, true,
         [.terminated "led_client" 9]⟩
      else ⟨W1w, false, [.stopFailed "led_client" 9]⟩) :=
  ⟨by decide, stop_node_spec W1w "led_client" 9 (by decide)⟩

/-- Claim C3: after a successful launch of a fresh node name, a second
launch without an intervening stop returns `False` with the
"already running" diagnostic, spawns nothing and changes nothing (the state
is exactly the one after the first launch), and the registry holds exactly
one entry for that name. -/
theorem launch_node_twice (w : World) (name : String)
    (h0 : lookupName name w.registry = none)
    (h1 : (launch_node w name).ok = true) :
    (launch_node (launch_node w name).world name).ok = false ∧
    (launch_node (launch_node w name).world name).world = (launch_node w name).world ∧
    countKey name (launch_node w name).world.registry = 1 ∧
    ∃ pid, (launch_node (launch_node w name).world name).events =
      [Event.alreadyRunning name pid] := by
  cases hs : w.spawnResult w.spawnCount with
  | none => simp [launch_node, h0, hs] at h1
  | some pid =>
    have hw1 : (launch_node w name).world.registry = w.registry ++ [(name, pid)] := by
      simp [launch_node, h0, hs]
    have hcount : countKey name (launch_node w name).world.registry = 1 := by
      rw [hw1, countKey_append, countKey_eq_zero name w.registry h0]
      simp [countKey]
    have hl : lookupName name (launch_node w name).world.registry = some pid := by
      rw [hw1, lookupName_append, h0]
      simp [lookupName]
    generalize hW : (launch_node w name).world = w1 at hl hcount ⊢
    have h2 : launch_node w1 name = ⟨w1, false, [Event.alreadyRunning name pid]⟩ := by
      simp [launch_node, hl]
    exact ⟨by rw [h2], by rw [h2], hcount, ⟨pid, by rw [h2]⟩⟩

/-- Witness for C3: launching `service_node` twice from the empty world
`W3`. -/
theorem launch_node_twice_witness :
    lookupName "service_node" W3.registry = none ∧
    (launch_node W3 "service_node").ok = true ∧
    ((launch_node (launch_node W3 "service_node").world "service_node").ok = false ∧
     (launch_node (launch_node W3 "service_node").world "service_node").world =
       (launch_node W3 "service_node").world ∧
     countKey "service_node" (launch_node W3 "service_node").world.registry = 1 ∧
     ∃ pid, (launch_node (launch_node W3 "service_node").world "service_node").events =
       [Event.alreadyRunning "service_node" pid]) :=
  ⟨by decide, by decide, launch_node_twice W3 "service_node" (by decide) (by decide)⟩

/-- Claim C10: `launch_multiple` strips surrounding whitespace from each key
before the catalog lookup — two keys with the same stripped form behave
identically — and concretely, the key `" 1 "` strips to `"1"` and is
launched (as `publisher_node`) rather than reported invalid. -/
theorem launch_multiple_strips (w : World) (k k' : String)
    (h : strip k = strip k') :
    launch_multiple w [k] = launch_multiple w [k'] ∧
    strip " 1 " = "1" ∧
    (launch_multiple W10 [" 1 "]).events = [Event.spawned "publisher_node" 55] := by
  refine ⟨?_, by decide, by decide⟩
  simp [launch_multiple, h]

/-- Witness for C10: the keys `" 2 "` and `"2"` strip to the same string
and give the same batch result. -/
theorem launch_multiple_strips_witness :
    strip " 2 " = strip "2" ∧
    (launch_multiple W10 [" 2 "] = launch_multiple W10 ["2"] ∧
     strip " 1 " = "1" ∧
     (launch_multiple W10 [" 1 "]).events = [Event.spawned "publisher_node" 55]) :=
  ⟨by decide, launch_multiple_strips W10 " 2 " "2" (by decide)⟩

/-- One running node whose stop attempt times out, for the C2 counterexample. -/
def W2 : World := ⟨[("publisher_node", 3)], 0, fun _ => none, fun _ => false⟩

/-- Two running nodes: the wait for pid 5 succeeds, the wait for pid 6 raises. -/
def W2w : World :=
  ⟨[("led_client", 5), ("led_service", 6)], 0, fun _ => none, fun n => n == 5⟩

/-- Claim C2 counterexample: in `W2` there is one registered node and its
stop attempt times out; `stop_all_nodes` makes the one attempt but the
registry is NOT empty afterwards — refuting "leaves the registry empty
... even when some individual stop attempts time out". -/
theorem stop_all_nodes_timeout_cex :
    (stop_all_nodes W2).events = [Event.stopFailed "publisher_node" 3] ∧
    ¬ (stop_all_nodes W2).world.registry = [] := by
  decide

/-- Claim C2 (amended): on a non-empty registry with distinct names,
`stop_all_nodes` makes exactly one stop attempt per entry in registration
order (one `terminated` or `stopFailed` event per entry); each attempt
whose wait succeeds removes its entry, each attempt whose wait raises
leaves its entry, so the registry afterwards holds exactly the entries
whose stop attempt failed (and is empty only when every wait succeeded). -/
theorem stop_all_nodes_spec (w : World) (hnd : KeysNodup w)
    (hne : w.registry ≠ []) :
    stop_all_nodes w =
      ⟨{ w with registry := w.registry.filter fun q => !w.waitOk q.2 },
       w.registry.map fun q =>
         if w.waitOk q.2 then Event.terminated q.1 q.2
         else Event.stopFailed q.1 q.2⟩ := by
  simp only [stop_all_nodes, if_neg hne]
  have h := stopAllLoop_spec w.registry [] w (by simp)
    (by simpa [KeysNodup] using hnd)
  rw [h]
  simp

/-- Witness for the amended C2 at `W2w`: the first stop succeeds, the second
times out and its entry survives. -/
theorem stop_all_nodes_spec_witness :
    KeysNodup W2w ∧ W2w.registry ≠ [] ∧
    stop_all_nodes W2w =
      ⟨{ W2w with registry := W2w.registry.filter fun q => !W2w.waitOk q.2 },
       W2w.registry.map fun q =>
         if W2w.waitOk q.2 then Event.terminated q.1 q.2
         else Event.stopFailed q.1 q.2⟩ :=
  ⟨by decide, by decide, stop_all_nodes_spec W2w (by decide) (by decide)⟩

/-! Preservation of the at-most-once invariant by every registry operation. -/

theorem launch_node_preserves (w : World) (name : String) (h : KeysNodup w) :
    KeysNodup (launch_node w name).world := by
  unfold KeysNodup at *
  cases hl : lookupName name w.registry with
  | some pid => simpa [launch_node, hl] using h
  | none =>
    cases hs : w.spawnResult w.spawnCount with
    | some pid =>
      simp only [launch_node, hl, hs]
      rw [List.map_append]
      refine List.Nodup.append h (by simp) ?_
      intro a ha hb
      simp only [List.map_cons, List.map_nil, List.mem_singleton] at hb
      subst hb
      exact (lookupName_eq_none a w.registry).mp hl ha
    | none => simpa [launch_node, hl, hs] using h

theorem stop_node_preserves (w : World) (name : String) (h : KeysNodup w) :
    KeysNodup (stop_node w name).world := by
  unfold KeysNodup at *
  cases hl : lookupName name w.registry with
  | none => simpa [stop_node, hl] using h
  | some pid =>
    by_cases hw : w.waitOk pid
    · simp only [stop_node, hl, hw, if_true]
      exact List.Nodup.sublist ((eraseKey_sublist name w.registry).map Prod.fst) h
    · simpa [stop_node, hl, hw] using h

theorem stopAllLoop_preserves (ns : List String) :
    ∀ w : World, KeysNodup w → KeysNodup (stopAllLoop w ns).world := by
  induction ns with
  | nil => intro w h; simpa [stopAllLoop] using h
  | cons n ns ih =>
    intro w h
    simp only [stopAllLoop]
    exact ih _ (stop_node_preserves w n h)

theorem stop_all_nodes_preserves (w : World) (h : KeysNodup w) :
    KeysNodup (stop_all_nodes w).world := by
  by_cases he : w.registry = []
  · simpa [stop_all_nodes, he] using h
  · simp only [stop_all_nodes, if_neg he]
    exact stopAllLoop_preserves _ w h

theorem launch_multiple_preserves (keys : List String) :
    ∀ w : World, KeysNodup w → KeysNodup (launch_multiple w keys).world := by
  induction keys with
  | nil => intro w h; simpa [launch_multiple] using h
  | cons k ks ih =>
    intro w h
    cases hf : findNode (strip k) available_nodes with
    | some info =>
      simp only [launch_multiple, hf]
      exact ih _ (launch_node_preserves w info.name h)
    | none =>
      simp only [launch_multiple, hf]
      exact ih w h

theorem launchAllLoop_preserves (infos : List NodeInfo) :
    ∀ w : World, KeysNodup w → KeysNodup (launchAllLoop w infos).world := by
  induction infos with
  | nil => intro w h; simpa [launchAllLoop] using h
  | cons info rest ih =>
    intro w h
    simp only [launchAllLoop]
    exact ih _ (launch_node_preserves w info.name h)

theorem launch_all_preserves (w : World) (h : KeysNodup w) :
    KeysNodup (launch_all w).world :=
  launchAllLoop_preserves _ w h

/-- Concrete world for the C5 witness: one running node, spawns succeed. -/
def W5 : World := ⟨[("yes_no_service", 20)], 1, fun _ => some 21, fun _ => true⟩

/-- Claim C5: every registry operation preserves the invariant that a node
name appears at most once, and each name's state machine is
ABSENT → RUNNING (successful launch) → ABSENT (successful stop): a failed
launch leaves the registry exactly as it was (the name stays absent, no
failed state is recorded), a successful launch makes the name present, and
a successful stop makes it absent. -/
theorem registry_invariant (w : World) (name : String) (keys : List String)
    (hnd : KeysNodup w) :
    KeysNodup (launch_node w name).world ∧
    KeysNodup (stop_node w name).world ∧
    KeysNodup (launch_multiple w keys).world ∧
    KeysNodup (launch_all w).world ∧
    KeysNodup (stop_all_nodes w).world ∧
    (lookupName name w.registry = none → (launch_node w name).ok = false →
      (launch_node w name).world.registry = w.registry) ∧
    (lookupName name w.registry = none → (launch_node w name).ok = true →
      ¬ lookupName name (launch_node w name).world.registry = none) ∧
    ((stop_node w name).ok = true →
      lookupName name (stop_node w name).world.registry = none) := by
  refine ⟨launch_node_preserves w name hnd, stop_node_preserves w name hnd,
    launch_multiple_preserves keys w hnd, launch_all_preserves w hnd,
    stop_all_nodes_preserves w hnd, ?_, ?_, ?_⟩
  · intro h0 hfail
    cases hs : w.spawnResult w.spawnCount with
    | none => simp [launch_node, h0, hs]
    | some pid => simp [launch_node, h0, hs] at hfail
  · intro h0 hok
    cases hs : w.spawnResult w.spawnCount with
    | none => simp [launch_node, h0, hs] at hok
    | some pid =>
      have hw1 : (launch_node w name).world.registry
          = w.registry ++ [(name, pid)] := by
        simp [launch_node, h0, hs]
      rw [hw1, lookupName_append, h0]
      simp [lookupName]
  · intro hok
    cases hl : lookupName name w.registry with
    | none => simp [stop_node, hl] at hok
    | some pid =>
      by_cases hw : w.waitOk pid
      · simp only [stop_node, hl, hw, if_true]
        exact lookupName_eraseKey_self name w.registry
      · simp [stop_node, hl, hw] at hok

/-- Witness for C5 at the concrete world `W5`, name `yes_no_client` and the
key batch `["7", "8"]`. -/
theorem registry_invariant_witness :
    KeysNodup W5 ∧
    (KeysNodup (launch_node W5 "yes_no_client").world ∧
     KeysNodup (stop_node W5 "yes_no_client").world ∧
     KeysNodup (launch_multiple W5 ["7", "8"]).world ∧
     KeysNodup (launch_all W5).world ∧
     KeysNodup (stop_all_nodes W5).world ∧
     (lookupName "yes_no_client" W5.registry = none →
       (launch_node W5 "yes_no_client").ok = false →
       (launch_node W5 "yes_no_client").world.registry = W5.registry) ∧
     (lookupName "yes_no_client" W5.registry = none →
       (launch_node W5 "yes_no_client").ok = true →
       ¬ lookupName "yes_no_client" (launch_node W5 "yes_no_client").world.registry = none) ∧
     ((stop_node W5 "yes_no_client").ok = true →
       lookupName "yes_no_client" (stop_node W5 "yes_no_client").world.registry = none)) :=
  ⟨by decide, registry_invariant W5 "yes_no_client" ["7", "8"] (by decide)⟩

/-- Empty registry; the k-th spawn returns pid 100 + k. -/
def W4 : World := ⟨[], 0, fun n => some (100 + n), fun _ => true⟩

/-- Claim C4: `launch_multiple` resolves each key against the catalog and an
unknown key is reported (`invalidKey`) and skipped while the rest of the
batch still runs; concretely, the catalog maps "1" to `publisher_node` and
"2" to `subscriber_node`, and `launch_multiple` on `["1","2","9"]` from the
empty registry launches those two nodes, reports key "9" invalid, and
leaves exactly 2 registry entries. -/
theorem launch_multiple_unknown_keys (w : World) (k : String)
    (rest : List String) (h : findNode (strip k) available_nodes = none) :
    launch_multiple w (k :: rest) =
      ⟨(launch_multiple w rest).world,
       Event.invalidKey (strip k) :: (launch_multiple w rest).events⟩ ∧
    findNode "1" available_nodes = some ⟨"publisher_node", "Publisher Node"⟩ ∧
    findNode "2" available_nodes = some ⟨"subscriber_node", "Subscriber Node"⟩ ∧
    (launch_multiple W4 ["1", "2", "9"]).world.registry =
      [("publisher_node", 100), ("subscriber_node", 101)] ∧
    (launch_multiple W4 ["1", "2", "9"]).events =
      [Event.spawned "publisher_node" 100, Event.spawned "subscriber_node" 101,
       Event.invalidKey "9"] ∧
    (launch_multiple W4 ["1", "2", "9"]).world.registry.length = 2 := by
  refine ⟨?_, by decide, by decide, by decide, by decide, by decide⟩
  simp [launch_multiple, h]

/-- Witness for C4: the key "9" is not in the catalog, so it is reported
and the (empty) remainder of the batch still runs. -/
theorem launch_multiple_unknown_keys_witness :
    findNode (strip "9") available_nodes = none ∧
    (launch_multiple W4 ["9"] =
      ⟨(launch_multiple W4 []).world,
       Event.invalidKey (strip "9") :: (launch_multiple W4 []).events⟩ ∧
     findNode "1" available_nodes = some ⟨"publisher_node", "Publisher Node"⟩ ∧
     findNode "2" available_nodes = some ⟨"subscriber_node", "Subscriber Node"⟩ ∧
     (launch_multiple W4 ["1", "2", "9"]).world.registry =
       [("publisher_node", 100), ("subscriber_node", 101)] ∧
     (launch_multiple W4 ["1", "2", "9"]).events =
       [Event.spawned "publisher_node" 100, Event.spawned "subscriber_node" 101,
        Event.invalidKey "9"] ∧
     (launch_multiple W4 ["1", "2", "9"]).world.registry.length = 2) :=
  ⟨by decide, launch_multiple_unknown_keys W4 "9" [] (by decide)⟩

/-- Claim C8: `launch_all` is exactly `launch_multiple` applied to every
catalog key in catalog order — same final state (registry, spawn counter,
spawned processes) and the same event trace, for every starting state. -/
theorem launch_all_eq_launch_multiple (w : World) :
    launch_all w = launch_multiple w (available_nodes.map Prod.fst) := by
  have hk : available_nodes.map Prod.fst
      = ["1", "2", "3", "4", "5", "6", "7", "8"] := by decide
  have hv : available_nodes.map Prod.snd
      = [⟨"publisher_node", "Publisher Node"⟩,
         ⟨"subscriber_node", "Subscriber Node"⟩,
         ⟨"service_node", "Service Node"⟩,
         ⟨"client_node", "Client Node"⟩,
         ⟨"led_client", "LED Client"⟩,
         ⟨"led_service", "LED Service"⟩,
         ⟨"yes_no_service", "Yes/No Service"⟩,
         ⟨"yes_no_client", "Yes/No Client"⟩] := by decide
  have h1 : findNode (strip "1") available_nodes
      = some ⟨"publisher_node", "Publisher Node"⟩ := by decide
  have h2 : findNode (strip "2") available_nodes
      = some ⟨"subscriber_node", "Subscriber Node"⟩ := by decide
  have h3 : findNode (strip "3") available_nodes
      = some ⟨"service_node", "Service Node"⟩ := by decide
  have h4 : findNode (strip "4") available_nodes
      = some ⟨"client_node", "Client Node"⟩ := by decide
  have h5 : findNode (strip "5") available_nodes
      = some ⟨"led_client", "LED Client"⟩ := by decide
  have h6 : findNode (strip "6") available_nodes
      = some ⟨"led_service", "LED Service"⟩ := by decide
  have h7 : findNode (strip "7") available_nodes
      = some ⟨"yes_no_service", "Yes/No Service"⟩ := by decide
  have h8 : findNode (strip "8") available_nodes
      = some ⟨"yes_no_client", "Yes/No Client"⟩ := by decide
  simp only [launch_all, hk, hv, launchAllLoop, launch_multiple,
    h1, h2, h3, h4, h5, h6, h7, h8]
